import Mathlib

/-!
Verification development for the cellcontrol user CRUD service.

The service is a layered pipeline: an HTTP handler binds and validates a JSON
body, a service layer normalizes the four text fields (trim whitespace on all
of them, additionally lower-case the email) and builds the `User` entity, and
a repository layer persists it through the store.  Strings are embedded as
lists of characters (`GoStr`); the store (an external collaborator reached
through an object-relational mapper) is modelled as an explicit state value
with a fault-injection slot so that arbitrary persistence errors can be
propagated through the layers.
-/

/-- Go strings, embedded as their sequence of characters. -/
abbrev GoStr := List Char

/-- Literal helper: a Lean string literal viewed as a `GoStr`. -/
def gs (s : String) : GoStr := s.toList

/-- Whitespace predicate used by `strings.TrimSpace` (`unicode.IsSpace`),
restricted to the Latin-1 range: space, tab, newline, vertical tab, form
feed, carriage return, next line, no-break space. -/
def goIsSpace (c : Char) : Bool :=
  c = ' ' || c = '\t' || c = '\n' || c = '\x0b' || c = '\x0c' || c = '\r' ||
  c = '\u0085' || c = '\u00A0'

/-- Per-character case mapping of `strings.ToLower` on the ASCII range:
map an upper-case letter (code 65–90) to its lower-case form, leave every
other character unchanged. -/
def charToLower (c : Char) : Char :=
  if 65 ≤ c.toNat ∧ c.toNat ≤ 90 then Char.ofNat (c.toNat + 32) else c

/-- Embedding of `strings.ToLower`: lower-case every character. -/
def goToLower (s : GoStr) : GoStr := s.map charToLower

/-- Embedding of `strings.TrimSpace`: drop leading whitespace, then drop
trailing whitespace. -/
def goTrimSpace (s : GoStr) : GoStr :=
  List.rdropWhile goIsSpace (List.dropWhile goIsSpace s)

/-- Normalization the service applies to the email input:
`strings.ToLower(strings.TrimSpace(email))`. -/
def normalizeEmail (s : GoStr) : GoStr := goToLower (goTrimSpace s)

/-- A Go `error` value: carries its message. -/
structure GoError where
  msg : GoStr
deriving DecidableEq, Repr

/-- The error the store produces when the unique index on `users.email`
rejects an insert. -/
def uniqueViolationErr : GoError := ⟨gs ("UNIQUE constraint failed: users.email")⟩

/-- The `domain.User` entity: auto-incremented primary key `ID`, four text
fields with a unique index on `Email`, and the two timestamps the store
maintains (embedded as `Nat`, with `0` the Go zero value). -/
structure User where
  ID : Nat
  Nombre : GoStr
  Apellido : GoStr
  Email : GoStr
  Reparto : GoStr
  CreatedAt : Nat
  UpdatedAt : Nat
deriving DecidableEq, Repr

/-- State of the backing store: the rows of the migrated `users` table, the
next auto-increment key, and a fault-injection slot (`some e` means every
database operation fails with the connectivity error `e`, modelling the
"connectivity/query failure" case of the spec). -/
structure Store where
  fault : Option GoError
  nextId : Nat
  rows : List User
deriving DecidableEq, Repr

/-- The store right after auto-migration: empty table, first key 1, healthy. -/
def initialStore : Store := ⟨none, 1, []⟩

/-- Modelled from the spec: the store adapter's single-row insert
(`r.db.Create(user)` through the object-relational mapper, an external
collaborator).  On a healthy store it rejects the insert with a uniqueness
error when a persisted row already holds the same email (the `uniqueIndex`
on `domain.User.Email`), and otherwise appends the row with the
auto-assigned id and both timestamps set. -/
def dbCreate (st : Store) (now : Nat) (u : User) : Store × Option GoError :=
  match st.fault with
  | some e => (st, some e)
  | none =>
    if st.rows.any (fun row => row.Email == u.Email) then
      (st, some uniqueViolationErr)
    else
      ({ st with
          nextId := st.nextId + 1,
          rows := st.rows ++ [{ u with ID := st.nextId, CreatedAt := now, UpdatedAt := now }] },
       none)

/-- Modelled from the spec: the store adapter's unfiltered select
(`r.db.Find(&users)`): on a healthy store it returns every row (an empty
list for an empty table, with no error); on a faulted store it returns the
connectivity error. -/
def dbFind (st : Store) : List User × Option GoError :=
  match st.fault with
  | some e => ([], some e)
  | none => (st.rows, none)

/-- `userRepository.CreateUser`: `return r.db.Create(user).Error`. -/
def userRepository.CreateUser (st : Store) (now : Nat) (u : User) : Store × Option GoError :=
  dbCreate st now u

/-- `userRepository.GetAllUsers`: `err := r.db.Find(&users).Error; return users, err`. -/
def userRepository.GetAllUsers (st : Store) : List User × Option GoError :=
  dbFind st

/-- The `domain.User` literal built inside `userService.CreateUser`:
trimmed `Nombre`/`Apellido`/`Reparto`, trimmed and lower-cased `Email`,
and every other field left at its zero value. -/
def userService.builtUser (nombre apellido email reparto : GoStr) : User :=
  { ID := 0
    Nombre := goTrimSpace nombre
    Apellido := goTrimSpace apellido
    Email := goToLower (goTrimSpace email)
    Reparto := goTrimSpace reparto
    CreatedAt := 0
    UpdatedAt := 0 }

/-- `userService.CreateUser`, parametric in the repository the service was
constructed with (the `repo` field of the `userService` struct): build the
normalized user, call the repository, and return its error (`if err != nil
{ return err }; return nil`). -/
def userService.CreateUserWith (repoCreate : User → Store × Option GoError)
    (nombre apellido email reparto : GoStr) : Store × Option GoError :=
  let u := userService.builtUser nombre apellido email reparto
  let res := repoCreate u
  match res.2 with
  | some err => (res.1, some err)
  | none => (res.1, none)

/-- `userService.CreateUser` wired to the store-backed repository. -/
def userService.CreateUser (st : Store) (now : Nat)
    (nombre apellido email reparto : GoStr) : Store × Option GoError :=
  userService.CreateUserWith (fun u => userRepository.CreateUser st now u)
    nombre apellido email reparto

/-- `userService.GetAllUsers`: `return s.repo.GetAllUsers()`. -/
def userService.GetAllUsers (st : Store) : List User × Option GoError :=
  userRepository.GetAllUsers st

/-- The `createUserRequest` shape the handler binds the JSON body into. -/
structure createUserRequest where
  Nombre : GoStr
  Apellido : GoStr
  Email : GoStr
  Reparto : GoStr
deriving DecidableEq, Repr

/-- An incoming JSON body for `POST /usuarios`: each of the four fields may
be absent. -/
structure CreateUserBody where
  nombre : Option GoStr
  apellido : Option GoStr
  email : Option GoStr
  reparto : Option GoStr
deriving DecidableEq, Repr

/-- Modelled from the spec: the basic email-format check the binding
framework's `email` tag performs ("must look like an email"): exactly one
`@` with non-empty parts on both sides and no whitespace. -/
def validEmailB (s : GoStr) : Bool :=
  let locpart := s.takeWhile (fun c => c ≠ '@')
  match s.dropWhile (fun c => c ≠ '@') with
  | '@' :: domain =>
      !locpart.isEmpty && !domain.isEmpty && !domain.contains '@' && !s.any goIsSpace
  | _ => false

/-- Modelled from the spec: the `required` binding tag on a string field of
the JSON body: the field must be present and differ from the zero value
(the empty string); its raw, untrimmed content is what is checked. -/
def requiredOk (v : Option GoStr) : Bool :=
  match v with
  | none => false
  | some s => !s.isEmpty

/-- Modelled from the spec: `c.ShouldBindJSON(&req)` for `createUserRequest`
with tags `required` on all four fields and `email` on `Email`; on failure
it produces a validation message naming the offending field and tag. -/
def bindJSON (b : CreateUserBody) : Except GoStr createUserRequest :=
  if !requiredOk b.nombre then
    .error (gs ("Field validation for Nombre failed on the required tag"))
  else if !requiredOk b.apellido then
    .error (gs ("Field validation for Apellido failed on the required tag"))
  else if !requiredOk b.email then
    .error (gs ("Field validation for Email failed on the required tag"))
  else if !validEmailB (b.email.getD []) then
    .error (gs ("Field validation for Email failed on the email tag"))
  else if !requiredOk b.reparto then
    .error (gs ("Field validation for Reparto failed on the required tag"))
  else
    .ok ⟨b.nombre.getD [], b.apellido.getD [], b.email.getD [], b.reparto.getD []⟩

/-- A JSON response body: `gin.H` error object, `gin.H` message object, the
serialized user array, or the fixed health payload. -/
inductive RespBody where
  | errObj (msg : GoStr)
  | msgObj (msg : GoStr)
  | userArr (userRows : List User)
  | statusOk
deriving DecidableEq, Repr

/-- `UserHandler.CreateUser`, parametric in the service the handler was
constructed with (the `svc` field of the `UserHandler` struct): bind the
body, answer 400 with the validation message on failure; otherwise call the
service and answer 500 with the generic message on error, 201 with the
confirmation message on success. -/
def UserHandler.CreateUserWith
    (svcCreate : GoStr → GoStr → GoStr → GoStr → Store × Option GoError)
    (st : Store) (body : CreateUserBody) : (Nat × RespBody) × Store :=
  match bindJSON body with
  | .error msg => ((400, RespBody.errObj msg), st)
  | .ok req =>
    let res := svcCreate req.Nombre req.Apellido req.Email req.Reparto
    match res.2 with
    | some _ => ((500, RespBody.errObj (gs ("no se pudo crear el usuario"))), res.1)
    | none => ((201, RespBody.msgObj (gs ("usuario creado exitosamente"))), res.1)

/-- `UserHandler.CreateUser` wired to the store-backed service. -/
def UserHandler.CreateUser (st : Store) (now : Nat) (body : CreateUserBody) :
    (Nat × RespBody) × Store :=
  UserHandler.CreateUserWith (fun n a e r => userService.CreateUser st now n a e r) st body

/-- `UserHandler.ListUsers`: call the service; answer 500 with the generic
message on error, 200 with the user array on success. -/
def UserHandler.ListUsers (st : Store) : Nat × RespBody :=
  let res := userService.GetAllUsers st
  match res.2 with
  | some _ => (500, RespBody.errObj (gs ("no se pudo obtener usuarios")))
  | none => (200, RespBody.userArr res.1)

/-- The `GET /health` closure registered in `NewServer`.  The `Store`
parameter records the ambient database state of the running process; the
closure reads none of it and always answers the fixed payload. -/
def Server.health (_st : Store) : Nat × RespBody := (200, RespBody.statusOk)

/-- Store states reachable by the core: the freshly migrated store, plus any
number of service-level creates (the only operation that writes). -/
inductive Reachable : Store → Prop where
  | init : Reachable initialStore
  | step (st : Store) (now : Nat) (n a e r : GoStr) (h : Reachable st) :
      Reachable (userService.CreateUser st now n a e r).1

/-- Two characters are equal exactly when their code points are. -/
theorem char_eq_iff_toNat {c d : Char} : c = d ↔ c.toNat = d.toNat :=
  ⟨fun h => h ▸ rfl, fun h => Char.ext (UInt32.ext h)⟩

/-- Building a character from a code point below the surrogate range keeps
the code point. -/
theorem toNat_charOfNat (n : Nat) (h : n < 55296) : (Char.ofNat n).toNat = n := by
  simp only [Char.ofNat, Nat.isValidChar, Char.toNat]
  rw [dif_pos (Or.inl h)]
  simp [Char.ofNatAux, UInt32.toNat]

/-- The whitespace predicate, read off on code points. -/
theorem goIsSpace_toNat (c : Char) :
    goIsSpace c = true ↔ (c.toNat = 32 ∨ c.toNat = 9 ∨ c.toNat = 10 ∨ c.toNat = 11 ∨
      c.toNat = 12 ∨ c.toNat = 13 ∨ c.toNat = 133 ∨ c.toNat = 160) := by
  simp [goIsSpace, char_eq_iff_toNat]
  tauto

/-- Lower-casing a character twice is the same as doing it once. -/
theorem charToLower_idem (c : Char) : charToLower (charToLower c) = charToLower c := by
  unfold charToLower
  split
  · next h =>
    rw [toNat_charOfNat _ (by omega)]
    rw [if_neg (by omega)]
  · rfl

/-- Lower-casing never creates or destroys whitespace. -/
theorem goIsSpace_charToLower (c : Char) : goIsSpace (charToLower c) = goIsSpace c := by
  unfold charToLower
  split
  · next h =>
    have h1 : (Char.ofNat (c.toNat + 32)).toNat = c.toNat + 32 := toNat_charOfNat _ (by omega)
    have g1 : goIsSpace (Char.ofNat (c.toNat + 32)) = false := by
      rw [← Bool.not_eq_true, goIsSpace_toNat, h1]
      omega
    have g2 : goIsSpace c = false := by
      rw [← Bool.not_eq_true, goIsSpace_toNat]
      omega
    rw [g1, g2]
  · rfl

/-- A prefix of a list whose head already fails the predicate is untouched
by `dropWhile`. -/
theorem dropWhile_of_front {α : Type} {p : α → Bool} {z y : List α} (hz : z <+: y)
    (hy : List.dropWhile p y = y) : List.dropWhile p z = z := by
  cases z with
  | nil => simp
  | cons c z1 =>
    obtain ⟨t, ht⟩ := hz
    have hc : p c = false := by
      by_contra hpc
      rw [Bool.not_eq_false] at hpc
      rw [← ht, List.cons_append, List.dropWhile_cons_of_pos hpc] at hy
      have hlen := (List.dropWhile_suffix (l := z1 ++ t) p).length_le
      rw [hy] at hlen
      simp at hlen
    rw [List.dropWhile_cons_of_neg (by simp [hc])]

/-- Trimming is idempotent. -/
theorem goTrimSpace_idem (l : GoStr) : goTrimSpace (goTrimSpace l) = goTrimSpace l := by
  unfold goTrimSpace
  rw [dropWhile_of_front (List.rdropWhile_prefix goIsSpace (List.dropWhile goIsSpace l))
      (List.dropWhile_idempotent goIsSpace l),
    List.rdropWhile_idempotent]

/-- Lower-casing commutes with dropping a whitespace prefix. -/
theorem dropWhile_goToLower (l : GoStr) :
    List.dropWhile goIsSpace (goToLower l) = goToLower (List.dropWhile goIsSpace l) := by
  unfold goToLower
  rw [List.dropWhile_map]
  have hpf : (goIsSpace ∘ charToLower) = goIsSpace := funext goIsSpace_charToLower
  rw [hpf]

/-- Lower-casing commutes with trimming. -/
theorem goTrimSpace_goToLower (l : GoStr) :
    goTrimSpace (goToLower l) = goToLower (goTrimSpace l) := by
  unfold goTrimSpace List.rdropWhile
  rw [dropWhile_goToLower]
  rw [show (goToLower (List.dropWhile goIsSpace l)).reverse
        = goToLower (List.dropWhile goIsSpace l).reverse by
      simp [goToLower, List.map_reverse]]
  rw [dropWhile_goToLower]
  simp [goToLower, List.map_reverse]

/-- Lower-casing is idempotent. -/
theorem goToLower_idem (l : GoStr) : goToLower (goToLower l) = goToLower l := by
  unfold goToLower
  rw [List.map_map]
  exact List.map_congr_left (fun c _ => charToLower_idem c)

/-- Email normalization is idempotent. -/
theorem normalizeEmail_idem (l : GoStr) :
    normalizeEmail (normalizeEmail l) = normalizeEmail l := by
  unfold normalizeEmail
  rw [goTrimSpace_goToLower, goTrimSpace_idem, goToLower_idem]

/-- The service call is exactly the repository call at the normalized user. -/
theorem createUserWith_eq (repoCreate : User → Store × Option GoError)
    (n a e r : GoStr) :
    userService.CreateUserWith repoCreate n a e r
      = repoCreate (userService.builtUser n a e r) := by
  unfold userService.CreateUserWith
  cases h : repoCreate (userService.builtUser n a e r) with
  | mk st err => cases err <;> simp [h]

/-- Invariant maintained by every reachable store state: healthy connection,
auto-increment key at least 1, every row's id in `[1, nextId)`, ids and
emails pairwise distinct, and every stored email already in normalized
form. -/
def StoreInv (st : Store) : Prop :=
  st.fault = none ∧ 1 ≤ st.nextId ∧
  (∀ u ∈ st.rows, 1 ≤ u.ID ∧ u.ID < st.nextId) ∧
  (st.rows.map User.ID).Nodup ∧
  (st.rows.map User.Email).Nodup ∧
  (∀ u ∈ st.rows, u.Email = normalizeEmail u.Email)

/-- The wired service create is the store insert at the normalized user. -/
theorem serviceCreate_eq_dbCreate (st : Store) (now : Nat) (n a e r : GoStr) :
    userService.CreateUser st now n a e r
      = dbCreate st now (userService.builtUser n a e r) := by
  unfold userService.CreateUser
  rw [createUserWith_eq]
  rfl

/-- Every reachable store state satisfies the invariant. -/
theorem reachable_inv (st : Store) (h : Reachable st) : StoreInv st := by
  induction h with
  | init =>
    refine ⟨rfl, le_refl 1, ?_, ?_, ?_, ?_⟩ <;> simp [initialStore]
  | step st now n a e r _ ih =>
    obtain ⟨hf, hn, hid, hidn, hem, hnorm⟩ := ih
    rw [serviceCreate_eq_dbCreate]
    unfold dbCreate
    simp only [hf]
    cases hany : st.rows.any (fun row => row.Email == (userService.builtUser n a e r).Email) with
    | true =>
      simp only [if_pos rfl, Bool.true_eq_false, if_true]
      exact ⟨hf, hn, hid, hidn, hem, hnorm⟩
    | false =>
      simp only [Bool.false_eq_true, if_false]
      have hnotin : ∀ u ∈ st.rows, u.Email ≠ (userService.builtUser n a e r).Email := by
        intro u hu
        have := List.any_eq_false.mp hany u hu
        simpa using this
      refine ⟨rfl, Nat.le_succ_of_le hn, ?_, ?_, ?_, ?_⟩
      · intro u hu
        rcases List.mem_append.mp hu with hu1 | hu2
        · exact ⟨(hid u hu1).1, Nat.lt_succ_of_lt (hid u hu1).2⟩
        · have : u = { userService.builtUser n a e r with
              ID := st.nextId, CreatedAt := now, UpdatedAt := now } := by
            simpa using hu2
          subst this
          exact ⟨hn, Nat.lt_succ_self _⟩
      · rw [List.map_append, List.map_singleton]
        rw [List.nodup_append]
        refine ⟨hidn, List.nodup_singleton _, ?_⟩
        intro x hx hx1
        simp only [List.mem_singleton] at hx1
        obtain ⟨u, hu, hux⟩ := List.mem_map.mp hx
        have := (hid u hu).2
        omega
      · rw [List.map_append, List.map_singleton]
        rw [List.nodup_append]
        refine ⟨hem, List.nodup_singleton _, ?_⟩
        intro x hx hx1
        simp only [List.mem_singleton] at hx1
        obtain ⟨u, hu, hux⟩ := List.mem_map.mp hx
        exact hnotin u hu (hux.trans hx1)
      · intro u hu
        rcases List.mem_append.mp hu with hu1 | hu2
        · exact hnorm u hu1
        · have : u = { userService.builtUser n a e r with
              ID := st.nextId, CreatedAt := now, UpdatedAt := now } := by
            simpa using hu2
          subst this
          show normalizeEmail e = normalizeEmail (normalizeEmail e)
          exact (normalizeEmail_idem e).symm

/-- C1: every call to the service's CreateUser passes the repository a User
whose Nombre, Apellido and Reparto are the whitespace-trimmed inputs, whose
Email is the lower-cased trimmed email input, and whose id and timestamps
are left at their zero values. -/
theorem createUser_passes_normalized_user
    (repoCreate : User → Store × Option GoError) (nombre apellido email reparto : GoStr) :
    userService.CreateUserWith repoCreate nombre apellido email reparto
      = repoCreate (userService.builtUser nombre apellido email reparto) ∧
    (userService.builtUser nombre apellido email reparto).Nombre = goTrimSpace nombre ∧
    (userService.builtUser nombre apellido email reparto).Apellido = goTrimSpace apellido ∧
    (userService.builtUser nombre apellido email reparto).Email
      = goToLower (goTrimSpace email) ∧
    (userService.builtUser nombre apellido email reparto).Reparto = goTrimSpace reparto ∧
    (userService.builtUser nombre apellido email reparto).ID = 0 ∧
    (userService.builtUser nombre apellido email reparto).CreatedAt = 0 ∧
    (userService.builtUser nombre apellido email reparto).UpdatedAt = 0 :=
  ⟨createUserWith_eq repoCreate nombre apellido email reparto,
   rfl, rfl, rfl, rfl, rfl, rfl, rfl⟩

/-- C6: the service's CreateUser returns exactly the (state, error) result of
the repository's create at the normalized user — the error value is
propagated unchanged, and the call succeeds exactly when the repository
call does. -/
theorem createUser_propagates_repo_error (st : Store) (now : Nat) (n a e r : GoStr) :
    userService.CreateUser st now n a e r
      = userRepository.CreateUser st now (userService.builtUser n a e r) ∧
    ((userService.CreateUser st now n a e r).2 = none ↔
      (userRepository.CreateUser st now (userService.builtUser n a e r)).2 = none) := by
  have h := createUserWith_eq (fun u => userRepository.CreateUser st now u) n a e r
  exact ⟨h, by rw [show userService.CreateUser st now n a e r
      = userRepository.CreateUser st now (userService.builtUser n a e r) from h]⟩

/-- C7: the service's listUsers is pure delegation — its result is exactly
the repository's listAll result, and on a healthy store the returned list
is the stored rows with no transformation, filtering or ordering. -/
theorem getAllUsers_delegates (st : Store) :
    userService.GetAllUsers st = userRepository.GetAllUsers st ∧
    (st.fault = none → (userService.GetAllUsers st).1 = st.rows) := by
  refine ⟨rfl, fun hf => ?_⟩
  simp only [userService.GetAllUsers, userRepository.GetAllUsers, dbFind, hf]

/-- Witness for C7 at the freshly migrated store. -/
theorem getAllUsers_delegates_witness :
    userService.GetAllUsers initialStore = userRepository.GetAllUsers initialStore ∧
    (userService.GetAllUsers initialStore).1 = initialStore.rows :=
  ⟨(getAllUsers_delegates initialStore).1, (getAllUsers_delegates initialStore).2 rfl⟩

/-- C8: the health route always answers 200 with the fixed status body, for
every request and independently of the database's state — the closure
performs no downstream check. -/
theorem health_always_ok (st st1 : Store) :
    Server.health st = (200, RespBody.statusOk) ∧ Server.health st = Server.health st1 :=
  ⟨rfl, rfl⟩

/-- C2: every persisted user of a reachable store state has a non-zero id,
ids and case-normalized emails are pairwise distinct, and a further create
whose submitted email normalizes like an already persisted email (differing
only in letter case or surrounding whitespace) fails with the uniqueness
error while leaving the store unchanged. -/
theorem persisted_users_unique (st : Store) (h : Reachable st) :
    (∀ u ∈ st.rows, u.ID ≠ 0) ∧
    (st.rows.map User.ID).Nodup ∧
    (st.rows.map User.Email).Nodup ∧
    (∀ now n a e r, (∃ u ∈ st.rows, normalizeEmail e = normalizeEmail u.Email) →
      userService.CreateUser st now n a e r = (st, some uniqueViolationErr)) := by
  obtain ⟨hf, hn, hid, hidn, hem, hnorm⟩ := reachable_inv st h
  refine ⟨?_, hidn, hem, ?_⟩
  · intro u hu
    have := (hid u hu).1
    omega
  · rintro now n a e r ⟨u, hu, he⟩
    rw [serviceCreate_eq_dbCreate]
    unfold dbCreate
    simp only [hf]
    have hbe : (userService.builtUser n a e r).Email = u.Email := by
      show normalizeEmail e = u.Email
      rw [he, ← hnorm u hu]
    have hany : st.rows.any
        (fun row => row.Email == (userService.builtUser n a e r).Email) = true :=
      List.any_eq_true.mpr ⟨u, hu, by simp [hbe]⟩
    rw [hany]
    simp

/-- Store state after one successful create with un-normalized inputs. -/
def st1 : Store :=
  (userService.CreateUser initialStore 7
    (gs ("  Juan ")) (gs ("Perez")) (gs (" JUAN@X.com ")) (gs ("IT"))).1

/-- The single row `st1` holds. -/
def u1 : User :=
  ⟨1, gs ("Juan"), gs ("Perez"), gs ("juan@x.com"), gs ("IT"), 7, 7⟩

/-- Witness for C2: a second create whose email differs from the stored
`juan@x.com` only in case fails with the uniqueness error and no new row. -/
theorem persisted_users_unique_witness :
    userService.CreateUser st1 3 (gs ("Ana")) (gs ("Diaz")) (gs ("juan@X.COM")) (gs ("RRHH"))
      = (st1, some uniqueViolationErr) :=
  (persisted_users_unique st1
      (Reachable.step initialStore 7
        (gs ("  Juan ")) (gs ("Perez")) (gs (" JUAN@X.com ")) (gs ("IT"))
        Reachable.init)).2.2.2
    3 (gs ("Ana")) (gs ("Diaz")) (gs ("juan@X.COM")) (gs ("RRHH"))
    ⟨u1, by decide, by decide⟩

/-- C3: listing users over a healthy store with zero rows answers 200 with
the empty array, and the 500 answer with the generic failure message occurs
exactly when the repository's listAll itself returns an error. -/
theorem listUsers_empty_ok_and_500_iff_repo_error (st : Store) :
    (st.fault = none → st.rows = [] → UserHandler.ListUsers st = (200, RespBody.userArr [])) ∧
    ((UserHandler.ListUsers st).1 = 500 ↔ (userRepository.GetAllUsers st).2.isSome) ∧
    (∀ e, (userRepository.GetAllUsers st).2 = some e →
      UserHandler.ListUsers st = (500, RespBody.errObj (gs ("no se pudo obtener usuarios")))) := by
  unfold UserHandler.ListUsers userService.GetAllUsers userRepository.GetAllUsers dbFind
  cases hf : st.fault with
  | some e => simp
  | none =>
    refine ⟨fun _ hrows => ?_, by simp, fun e he => by simp at he⟩
    simp [hrows]

/-- Witness for C3: the empty healthy store answers 200 with the empty
array, and a faulted store answers 500 with the generic message. -/
theorem listUsers_witness :
    UserHandler.ListUsers initialStore = (200, RespBody.userArr []) ∧
    UserHandler.ListUsers ⟨some ⟨gs ("sin conexion")⟩, 1, []⟩
      = (500, RespBody.errObj (gs ("no se pudo obtener usuarios"))) :=
  ⟨(listUsers_empty_ok_and_500_iff_repo_error initialStore).1 rfl rfl,
   (listUsers_empty_ok_and_500_iff_repo_error ⟨some ⟨gs ("sin conexion")⟩, 1, []⟩).2.2
     ⟨gs ("sin conexion")⟩ rfl⟩

/-- C4: the create handler answers 400 with the validation message when
binding fails, 500 with exactly the generic creation-failure body when the
service errs, and 201 with exactly the confirmation body when it succeeds. -/
theorem createUser_handler_responses (st : Store) (now : Nat) (body : CreateUserBody) :
    (∀ msg, bindJSON body = Except.error msg →
        UserHandler.CreateUser st now body = ((400, RespBody.errObj msg), st)) ∧
    (∀ req, bindJSON body = Except.ok req →
      ((∀ e, (userService.CreateUser st now req.Nombre req.Apellido req.Email req.Reparto).2
            = some e →
          UserHandler.CreateUser st now body
            = ((500, RespBody.errObj (gs ("no se pudo crear el usuario"))),
               (userService.CreateUser st now req.Nombre req.Apellido req.Email req.Reparto).1)) ∧
       ((userService.CreateUser st now req.Nombre req.Apellido req.Email req.Reparto).2 = none →
          UserHandler.CreateUser st now body
            = ((201, RespBody.msgObj (gs ("usuario creado exitosamente"))),
               (userService.CreateUser st now req.Nombre req.Apellido req.Email
                  req.Reparto).1)))) := by
  constructor
  · intro msg hmsg
    unfold UserHandler.CreateUser UserHandler.CreateUserWith
    rw [hmsg]
  · intro req hreq
    constructor
    · intro e he
      unfold UserHandler.CreateUser UserHandler.CreateUserWith
      rw [hreq]
      simp only [he]
    · intro hnone
      unfold UserHandler.CreateUser UserHandler.CreateUserWith
      rw [hreq]
      simp only [hnone]

/-- A create body that binds successfully. -/
def okBody : CreateUserBody :=
  ⟨some (gs ("Juan")), some (gs ("Perez")), some (gs ("JUAN@X.COM")), some (gs ("IT"))⟩

/-- The request `okBody` binds to. -/
def okReq : createUserRequest :=
  ⟨gs ("Juan"), gs ("Perez"), gs ("JUAN@X.COM"), gs ("IT")⟩

/-- Witness for C4: a valid body over the empty store yields 201 with the
confirmation message. -/
theorem createUser_handler_responses_witness :
    UserHandler.CreateUser initialStore 7 okBody
      = ((201, RespBody.msgObj (gs ("usuario creado exitosamente"))),
         (userService.CreateUser initialStore 7
           (gs ("Juan")) (gs ("Perez")) (gs ("JUAN@X.COM")) (gs ("IT"))).1) :=
  ((createUser_handler_responses initialStore 7 okBody).2 okReq rfl).2 (by decide)

/-- C5: whenever binding rejects a create request with 400, the response
carries the validation message and the store is returned unchanged, for
every service the handler could have been constructed with — the service
and repository are never invoked and no row is inserted. -/
theorem createUser_400_leaves_store
    (svcCreate : GoStr → GoStr → GoStr → GoStr → Store × Option GoError)
    (st : Store) (now : Nat) (body : CreateUserBody) (msg : GoStr)
    (h : bindJSON body = Except.error msg) :
    UserHandler.CreateUserWith svcCreate st body = ((400, RespBody.errObj msg), st) ∧
    UserHandler.CreateUser st now body = ((400, RespBody.errObj msg), st) := by
  refine ⟨?_, ?_⟩
  · unfold UserHandler.CreateUserWith
    rw [h]
  · unfold UserHandler.CreateUser UserHandler.CreateUserWith
    rw [h]

/-- A create body with the nombre field absent. -/
def missingBody : CreateUserBody :=
  ⟨none, some (gs ("Perez")), some (gs ("ana@x.com")), some (gs ("IT"))⟩

/-- Witness for C5: a body missing `nombre` yields 400 and leaves the empty
store empty. -/
theorem createUser_400_leaves_store_witness :
    UserHandler.CreateUserWith (fun n a e r => userService.CreateUser initialStore 0 n a e r)
        initialStore missingBody
      = ((400, RespBody.errObj
            (gs ("Field validation for Nombre failed on the required tag"))), initialStore) ∧
    UserHandler.CreateUser initialStore 0 missingBody
      = ((400, RespBody.errObj
            (gs ("Field validation for Nombre failed on the required tag"))), initialStore) :=
  createUser_400_leaves_store _ initialStore 0 missingBody _ rfl

/-- C9: a required text field consisting solely of whitespace passes the
binding's required check (the raw string is non-empty), the service trims
it to the empty string, and the created row persists that empty field —
non-emptiness is enforced only on the raw, untrimmed input. -/
theorem whitespace_only_field_persisted_empty (s a e r : GoStr)
    (hs : s ≠ []) (hsp : ∀ c ∈ s, goIsSpace c = true)
    (ha : a ≠ []) (he : validEmailB e = true) (hr : r ≠ []) :
    bindJSON ⟨some s, some a, some e, some r⟩ = Except.ok ⟨s, a, e, r⟩ ∧
    (userService.builtUser s a e r).Nombre = [] ∧
    (UserHandler.CreateUser initialStore 0 ⟨some s, some a, some e, some r⟩).1.1 = 201 ∧
    ((UserHandler.CreateUser initialStore 0 ⟨some s, some a, some e, some r⟩).2.rows.map
        User.Nombre) = [[]] := by
  have hs1 : s.isEmpty = false := by
    cases s with
    | nil => exact absurd rfl hs
    | cons c t => rfl
  have ha1 : a.isEmpty = false := by
    cases a with
    | nil => exact absurd rfl ha
    | cons c t => rfl
  have hr1 : r.isEmpty = false := by
    cases r with
    | nil => exact absurd rfl hr
    | cons c t => rfl
  have he1 : e.isEmpty = false := by
    cases e with
    | nil => exact absurd (by decide : validEmailB [] = false) (by simp [he])
    | cons c t => rfl
  have hbind : bindJSON ⟨some s, some a, some e, some r⟩ = Except.ok ⟨s, a, e, r⟩ := by
    simp [bindJSON, requiredOk, hs1, ha1, hr1, he1, he]
  have htrim : goTrimSpace s = [] := by
    have hdrop : List.dropWhile goIsSpace s = [] :=
      List.dropWhile_eq_nil_iff.mpr (fun x hx => hsp x hx)
    simp [goTrimSpace, hdrop]
  refine ⟨hbind, htrim, ?_, ?_⟩ <;>
  · unfold UserHandler.CreateUser UserHandler.CreateUserWith
    rw [hbind]
    simp [serviceCreate_eq_dbCreate, dbCreate, initialStore, userService.builtUser, htrim]

/-- Witness for C9: a body whose nombre is three spaces is accepted and
creates a row whose persisted nombre is empty. -/
theorem whitespace_only_field_witness :
    bindJSON ⟨some (gs ("   ")), some (gs ("Perez")), some (gs ("ana@x.com")), some (gs ("IT"))⟩
      = Except.ok ⟨gs ("   "), gs ("Perez"), gs ("ana@x.com"), gs ("IT")⟩ ∧
    (userService.builtUser (gs ("   ")) (gs ("Perez")) (gs ("ana@x.com")) (gs ("IT"))).Nombre
      = [] ∧
    (UserHandler.CreateUser initialStore 0
        ⟨some (gs ("   ")), some (gs ("Perez")), some (gs ("ana@x.com")), some (gs ("IT"))⟩).1.1
      = 201 ∧
    ((UserHandler.CreateUser initialStore 0
        ⟨some (gs ("   ")), some (gs ("Perez")), some (gs ("ana@x.com")),
         some (gs ("IT"))⟩).2.rows.map User.Nombre) = [[]] :=
  whitespace_only_field_persisted_empty (gs ("   ")) (gs ("Perez")) (gs ("ana@x.com"))
    (gs ("IT")) (by decide) (by decide) (by decide) (by decide) (by decide)

/-- C10: the per-field normalization of the service's CreateUser is
idempotent — feeding already-normalized inputs builds the same user as the
raw inputs, applying trim (and the email normalization) twice equals
applying it once, and already-normalized inputs are stored unchanged. -/
theorem normalization_idempotent (n a e r : GoStr) :
    userService.builtUser (goTrimSpace n) (goTrimSpace a) (normalizeEmail e) (goTrimSpace r)
      = userService.builtUser n a e r ∧
    goTrimSpace (goTrimSpace n) = goTrimSpace n ∧
    normalizeEmail (normalizeEmail e) = normalizeEmail e ∧
    (goTrimSpace n = n → (userService.builtUser n a e r).Nombre = n) ∧
    (normalizeEmail e = e → (userService.builtUser n a e r).Email = e) := by
  refine ⟨?_, goTrimSpace_idem n, normalizeEmail_idem e, fun hn => hn, fun he => he⟩
  have hE := normalizeEmail_idem e
  unfold normalizeEmail at hE
  simp [userService.builtUser, goTrimSpace_idem, normalizeEmail, hE]

/-- Witness for C10: already-normalized inputs are stored unchanged. -/
theorem normalization_idempotent_witness :
    (userService.builtUser (gs ("Juan")) (gs ("Perez")) (gs ("juan@x.com"))
        (gs ("IT"))).Nombre = gs ("Juan") ∧
    (userService.builtUser (gs ("Juan")) (gs ("Perez")) (gs ("juan@x.com"))
        (gs ("IT"))).Email = gs ("juan@x.com") :=
  ⟨(normalization_idempotent (gs ("Juan")) (gs ("Perez")) (gs ("juan@x.com"))
      (gs ("IT"))).2.2.2.1 (by decide),
   (normalization_idempotent (gs ("Juan")) (gs ("Perez")) (gs ("juan@x.com"))
      (gs ("IT"))).2.2.2.2 (by decide)⟩
